import Mathlib

/-!
Verification of `generate-alloy-targets.py`: a generator of Grafana Alloy
discovery.file targets from Nomad node allocations.  Python dictionaries
returned by the Nomad API are embedded as structures with `Option` fields
(`Option.none` models an absent key, matching `dict.get(key, default)`), and
the pure target-generation and rendering logic is translated function by
function from the source.
-/

namespace NomadAlloy

/-- An allocation record as returned by the Nomad API, restricted to the keys
the script reads (`ID`, `JobID`, `TaskGroup`, `ClientStatus`, `Namespace`,
`NodeID`, `TaskStates`).  `TaskStates` is a JSON object mapping task names to
task state; the script only iterates its keys, so it is embedded as the list
of task names in the object's (insertion) order.  An `Option.none` field
models a missing key. -/
structure Alloc where
  ID : Option String
  JobID : Option String
  TaskGroup : Option String
  ClientStatus : Option String
  Namespace : Option String
  NodeID : Option String
  TaskStates : Option (List String)
deriving DecidableEq

/-- One Alloy discovery target, with the label keys in the insertion order of
the Python dict built in `generate_alloy_targets` (lines 150-171):
`__path__`, `job`, `task_group`, `task`, `alloc_id`, `namespace`, `stream`,
`node_id`.  The `namespace` label is called `nspace` here because `namespace`
is a reserved word. -/
structure Target where
  path : String
  job : String
  task_group : String
  task : String
  alloc_id : String
  nspace : String
  stream : String
  node_id : String
deriving DecidableEq

/-- Line 134: `status = alloc.get("ClientStatus", "unknown")`. -/
def statusOf (alloc : Alloc) : String :=
  alloc.ClientStatus.getD "unknown"

/-- Lines 146-147: `f"{NOMAD_LOG_DIR}/{alloc_id}/alloc/logs/{task_name}.{stream}.0"`. -/
def logPath (logDir alloc_id task stream : String) : String :=
  logDir ++ "/" ++ alloc_id ++ "/alloc/logs/" ++ task ++ "." ++ stream ++ ".0"

/-- One target dict appended in `generate_alloy_targets` (lines 150-159,
162-171), with the field defaults of lines 131-135:
`ID -> ""`, `JobID -> "unknown"`, `TaskGroup -> "unknown"`,
`Namespace -> "default"`, `NodeID -> ""`. -/
def mkTarget (logDir : String) (alloc : Alloc) (task stream : String) : Target :=
  { path := logPath logDir (alloc.ID.getD "") task stream
    job := alloc.JobID.getD "unknown"
    task_group := alloc.TaskGroup.getD "unknown"
    task := task
    alloc_id := alloc.ID.getD ""
    nspace := alloc.Namespace.getD "default"
    stream := stream
    node_id := alloc.NodeID.getD "" }

/-- The targets contributed by a single allocation in the loop body of
`generate_alloy_targets` (lines 130-171): allocations whose status is not
`running`/`pending` are skipped (line 138), `TaskStates` defaults to the
empty object (line 142), and each task name contributes a stdout target
followed by a stderr target. -/
def allocTargets (logDir : String) (alloc : Alloc) : List Target :=
  if statusOf alloc = "running" ∨ statusOf alloc = "pending" then
    (alloc.TaskStates.getD []).flatMap
      (fun task => [mkTarget logDir alloc task "stdout", mkTarget logDir alloc task "stderr"])
  else []

/-- `generate_alloy_targets` (lines 126-173): the per-allocation targets are
appended into one list, keeping the allocations in their fetched order. -/
def generate_alloy_targets (logDir : String) (allocations : List Alloc) : List Target :=
  allocations.flatMap (allocTargets logDir)

/-- Line 201, first pass: `str(value).replace('\x5c', '\x5c\x5c')` — every
backslash is doubled, other characters pass through. -/
def escapeBackslash : List Char → List Char
  | [] => []
  | c :: rest => (if c = '\\' then ['\\', '\\'] else [c]) ++ escapeBackslash rest

/-- Line 201, second pass: `.replace('"', '\x5c"')` — every double quote gets
a backslash in front of it, other characters pass through. -/
def escapeQuote : List Char → List Char
  | [] => []
  | c :: rest => (if c = '"' then ['\\', '"'] else [c]) ++ escapeQuote rest

/-- Line 201: `escaped_value = str(value).replace('\x5c', '\x5c\x5c').replace('"', '\x5c"')`,
backslashes escaped first, then double quotes. -/
def escape_value (s : String) : String :=
  String.mk (escapeQuote (escapeBackslash s.toList))

/-- The label assignments of one target in the order of the dict keys
(lines 199-202): `f'\x7bkey\x7d = "\x7bescaped_value\x7d"'` for each key/value pair. -/
def targetLabels (t : Target) : List String :=
  [ "__path__ = \"" ++ escape_value t.path ++ "\""
  , "job = \"" ++ escape_value t.job ++ "\""
  , "task_group = \"" ++ escape_value t.task_group ++ "\""
  , "task = \"" ++ escape_value t.task ++ "\""
  , "alloc_id = \"" ++ escape_value t.alloc_id ++ "\""
  , "namespace = \"" ++ escape_value t.nspace ++ "\""
  , "stream = \"" ++ escape_value t.stream ++ "\""
  , "node_id = \"" ++ escape_value t.node_id ++ "\"" ]

/-- Lines 204-205: `labels_str = ', '.join(labels)` wrapped as
`f'      \x7b\x7b\x7blabels_str\x7d\x7d\x7d,'` (a brace-delimited River map line). -/
def renderTargetLine (t : Target) : String :=
  "      \x7b" ++ String.intercalate ", " (targetLabels t) ++ "\x7d,"

/-- The pure rendering part of `write_discovery_file` (lines 182-213): the
fixed header lines, one map line per target, the fixed footer lines, joined
with `'\n'.join(config_lines)`. -/
def render (targets : List Target) : String :=
  String.intercalate "\n"
    ([ "// Nomad log file targets module"
     , "// Generated automatically - do not edit manually"
     , ""
     , "declare \"nomad_targets\" \x7b"
     , "  // Export the list of Nomad allocation log targets"
     , "  export \"alloc_targets\" \x7b"
     , "    value = [" ]
     ++ targets.map renderTargetLine
     ++ [ "    ]", "  \x7d", "\x7d" ])

/-- Modelled from the spec: a conformant parser of the rendered grammar's
quoted-string values, which "recovers the original string" by unescaping
`\x5c\x5c` to a backslash and `\x5c"` to a double quote.  A stray backslash
escape or a bare (unescaped) double quote is not a legal value body, so the
parser rejects it with `Option.none`. -/
def unescapeChars : List Char → Option (List Char)
  | [] => some []
  | c :: rest =>
    if c = '\\' then
      match rest with
      | [] => Option.none
      | d :: rest' =>
        if d = '\\' then (unescapeChars rest').map (fun l => '\\' :: l)
        else if d = '"' then (unescapeChars rest').map (fun l => '"' :: l)
        else Option.none
    else if c = '"' then Option.none
    else (unescapeChars rest).map (fun l => c :: l)

/-- Helper for the `"/v1/"` separator: if the list starts with the four
characters `/v1/`, strip them and return the remainder. -/
def stripV1 : List Char → Option (List Char)
  | a :: b :: c :: d :: rest =>
    if a = '/' ∧ b = 'v' ∧ c = '1' ∧ d = '/' then some rest else Option.none
  | _ => Option.none

/-- Re-attach a character to the first piece of a split result. -/
def consHead (c : Char) : List (List Char) → List (List Char)
  | [] => [[c]]
  | h :: t => (c :: h) :: t

/-- Fuelled version of Python's `s.split("/v1/")`: scan left to right, cut at
every non-overlapping occurrence of the separator.  The fuel only serves
termination; any fuel of at least the list's length gives the same answer. -/
def splitV1Aux : Nat → List Char → List (List Char)
  | 0, l => [l]
  | Nat.succ n, l =>
    match stripV1 l, l with
    | some rest, _ => [] :: splitV1Aux n rest
    | Option.none, [] => [[]]
    | Option.none, c :: rest => consHead c (splitV1Aux n rest)

/-- Python's `s.split("/v1/")` (line 87-88): the pieces of `s` between the
non-overlapping occurrences of `"/v1/"`, scanned left to right. -/
def splitV1 (l : List Char) : List (List Char) :=
  splitV1Aux l.length l

/-- Modelled from the spec: split a string at the FIRST occurrence of the
API version segment `"/v1/"` — everything before it, paired with everything
from it onward (inclusive).  `Option.none` when the segment does not occur. -/
def splitFirstV1 : List Char → Option (List Char × List Char)
  | [] => Option.none
  | c :: rest =>
    match stripV1 (c :: rest) with
    | some _ => some ([], c :: rest)
    | Option.none => (splitFirstV1 rest).map (fun p => (c :: p.1, p.2))

/-- The `unix://` branch of `make_http_request` (lines 84-93):
`url_without_scheme = url[7:]`,
`unix_socket_path = url_without_scheme.split("/v1/")[0]`,
`url_path = "/v1/" + url_without_scheme.split("/v1/")[1]`.
Python raises `IndexError` when the split yields fewer than two pieces
(no `"/v1/"` in the URL), modelled as `Option.none`; pieces past index 1 are
silently dropped, exactly as in the source. -/
def unixSplit (url : List Char) : Option (List Char × List Char) :=
  if url.take 7 = "unix://".toList then
    match splitV1 (url.drop 7) with
    | p0 :: p1 :: _ => some (p0, '/' :: 'v' :: '1' :: '/' :: p1)
    | _ => Option.none
  else Option.none

/-- Result of a call that either succeeds or terminates the process via
`sys.exit`. -/
inductive NodeIdResult
  | ok (nodeId : String)
  | fatalExit (code : Nat)
deriving DecidableEq

/-- `get_node_id` (lines 105-114), with the HTTP layer abstracted as the
already-delivered result of `make_http_request` on the allocation-detail
endpoint: on success it returns `alloc_data.get("NodeID", "")`; on any
exception it logs and calls `sys.exit(1)`. -/
def get_node_id (resp : Except String Alloc) : NodeIdResult :=
  match resp with
  | Except.ok alloc_data => NodeIdResult.ok (alloc_data.NodeID.getD "")
  | Except.error _ => NodeIdResult.fatalExit 1

/-- `get_node_allocations` (lines 117-123): on success it returns the decoded
allocation list; on any exception it logs and returns the empty list — it
never fails. -/
def get_node_allocations (resp : Except String (List Alloc)) : List Alloc :=
  match resp with
  | Except.ok allocs => allocs
  | Except.error _ => []

/-- Where a cycle's file write can fail, relative to
`with open(output_path, 'w') as f: f.write(...)` (lines 211-213). -/
inductive WriteStep
  | failBeforeOpen
  | failAfterTruncate (k : Nat)
  | completed
deriving DecidableEq

/-- Models the content visible at the output path after the write in
`write_discovery_file` (lines 211-213), under CPython's mode-`'w'` semantics:
`open(output_path, 'w')` truncates the destination file in place as soon as
it succeeds, and the rendered text is then written into the same file — there
is no temporary file and no atomic rename/replace in the source.  `prev` is
the previous file content and `content` the newly rendered configuration:
a failure before the open (serialization, mkdir, or the open itself) leaves
`prev` on disk; a failure after the open (write, flush, close) leaves
whatever prefix of `content` (possibly empty, `k` characters) reached the
file; only completion leaves `content`. -/
def fileAfterWrite (prev content : List Char) : WriteStep → List Char
  | WriteStep.failBeforeOpen => prev
  | WriteStep.failAfterTruncate k => content.take k
  | WriteStep.completed => content

/-- A Python exception as seen by the main loop's handlers: `sys.exit(code)`
raises `SystemExit(code)`, which derives from `BaseException` but NOT from
`Exception`; every other failure is an ordinary `Exception`. -/
inductive PyExc
  | systemExit (code : Nat)
  | ordinary
deriving DecidableEq

/-- What one loop iteration does next. -/
inductive CycleResult
  | nextCycle
  | procExit (code : Nat)
deriving DecidableEq

/-- The main-loop handler (lines 271-280): `except Exception` catches only
ordinary exceptions — in continuous mode it logs and retries next cycle,
otherwise it calls `sys.exit(1)`; a `SystemExit` raised inside the cycle is
not caught and terminates the process with its code. -/
def mainLoopCatch (continuousMode : Bool) : PyExc → CycleResult
  | PyExc.systemExit code => CycleResult.procExit code
  | PyExc.ordinary =>
      if continuousMode then CycleResult.nextCycle else CycleResult.procExit 1

/-- The error path of `write_discovery_file` (lines 176-218): any exception
during directory creation, rendering, or the file write is caught, logged,
and converted into `sys.exit(1)` — i.e. a `SystemExit(1)` escapes to the
caller whenever the write fails, in every mode. -/
def writeDiscoveryExc (writeFails : Bool) : Option PyExc :=
  if writeFails then some (PyExc.systemExit 1) else Option.none

/-- One main-loop iteration around the `write_discovery_file` call
(lines 242-280), as a function of the mode and of whether the write fails:
a successful write continues the loop; a failed write raises `SystemExit(1)`
(from `writeDiscoveryExc`), which `mainLoopCatch` cannot catch. -/
def cycleAfterWrite (continuousMode writeFails : Bool) : CycleResult :=
  match writeDiscoveryExc writeFails with
  | Option.none => CycleResult.nextCycle
  | some e => mainLoopCatch continuousMode e

/-! Helper lemmas (shared between claims). -/

theorem length_flatMap_pair {α β : Type} (f g : α → β) (ts : List α) :
    (ts.flatMap (fun t => [f t, g t])).length = 2 * ts.length := by
  induction ts with
  | nil => rfl
  | cons t ts ih =>
    simp only [List.flatMap_cons, List.length_append, List.length_cons,
      List.length_nil, ih]
    omega

theorem eq_mkTarget_of_mem {logDir : String} {alloc : Alloc} {t : Target}
    (ht : t ∈ allocTargets logDir alloc) :
    ∃ task stream, t = mkTarget logDir alloc task stream
      ∧ (stream = "stdout" ∨ stream = "stderr")
      ∧ task ∈ alloc.TaskStates.getD [] := by
  unfold allocTargets at ht
  split at ht
  · rw [List.mem_flatMap] at ht
    obtain ⟨task, htask, hmem⟩ := ht
    simp only [List.mem_cons, List.not_mem_nil, or_false] at hmem
    rcases hmem with rfl | rfl
    · exact ⟨task, "stdout", rfl, Or.inl rfl, htask⟩
    · exact ⟨task, "stderr", rfl, Or.inr rfl, htask⟩
  · cases ht

/-! The claims. -/

/-- C4: for every eligible allocation (clientStatus running or pending) with
N declared task names, the mapper produces exactly 2N targets — one stdout
and one stderr target per task, stdout before stderr for each task,
allocations in fetch order — and each target's `__path__` equals
`<logRoot>/<allocID>/alloc/logs/<task>.<stream>.0`. -/
theorem C4_two_targets_per_task (logDir : String) (alloc : Alloc)
    (h : statusOf alloc = "running" ∨ statusOf alloc = "pending") :
    allocTargets logDir alloc
      = (alloc.TaskStates.getD []).flatMap
          (fun task => [mkTarget logDir alloc task "stdout", mkTarget logDir alloc task "stderr"])
    ∧ (allocTargets logDir alloc).length = 2 * (alloc.TaskStates.getD []).length
    ∧ (∀ t ∈ allocTargets logDir alloc,
        t.path = logPath logDir (alloc.ID.getD "") t.task t.stream
          ∧ (t.stream = "stdout" ∨ t.stream = "stderr"))
    ∧ (∀ allocs : List Alloc,
        generate_alloy_targets logDir allocs = allocs.flatMap (allocTargets logDir)) := by
  have heq : allocTargets logDir alloc
      = (alloc.TaskStates.getD []).flatMap
          (fun task => [mkTarget logDir alloc task "stdout", mkTarget logDir alloc task "stderr"]) := by
    unfold allocTargets
    rw [if_pos h]
  refine ⟨heq, ?_, ?_, fun _ => rfl⟩
  · rw [heq]
    exact length_flatMap_pair _ _ _
  · intro t ht
    obtain ⟨task, stream, rfl, hstream, -⟩ := eq_mkTarget_of_mem ht
    exact ⟨rfl, hstream⟩

def alloc4ex : Alloc :=
  { ID := some "abc123", JobID := some "web", TaskGroup := some "api",
    ClientStatus := some "running", Namespace := some "prod",
    NodeID := some "node-1", TaskStates := some ["server"] }

theorem C4_witness :
    (statusOf alloc4ex = "running" ∨ statusOf alloc4ex = "pending")
    ∧ (allocTargets "/var/nomad/alloc" alloc4ex).length
        = 2 * (alloc4ex.TaskStates.getD []).length :=
  ⟨Or.inl rfl, (C4_two_targets_per_task "/var/nomad/alloc" alloc4ex (Or.inl rfl)).2.1⟩

/-- C5: for every allocation record whose clientStatus is not in
running/pending, the mapper produces zero targets for that allocation. -/
theorem C5_filtered_status_no_targets (logDir : String) (alloc : Alloc)
    (h : ¬(statusOf alloc = "running" ∨ statusOf alloc = "pending")) :
    allocTargets logDir alloc = [] := by
  unfold allocTargets
  rw [if_neg h]

def alloc5ex : Alloc :=
  { ID := some "dead01", JobID := some "web", TaskGroup := some "api",
    ClientStatus := some "complete", Namespace := some "prod",
    NodeID := some "node-1", TaskStates := some ["server"] }

theorem C5_witness :
    ¬(statusOf alloc5ex = "running" ∨ statusOf alloc5ex = "pending")
    ∧ allocTargets "/var/nomad/alloc" alloc5ex = [] :=
  ⟨by decide, C5_filtered_status_no_targets "/var/nomad/alloc" alloc5ex (by decide)⟩

/-- C7: resolving the node identity fails fatally (the process exits with a
non-zero status) when the allocation-detail request fails, whereas listing
the node's allocations never fails: on any error it returns an empty
sequence, letting the cycle proceed with zero targets. -/
theorem C7_identity_fatal_listing_degrades :
    (∀ e : String, get_node_id (Except.error e) = NodeIdResult.fatalExit 1)
    ∧ (∀ a : Alloc, get_node_id (Except.ok a) = NodeIdResult.ok (a.NodeID.getD ""))
    ∧ (∀ e : String, get_node_allocations (Except.error e) = [])
    ∧ (∀ l : List Alloc, get_node_allocations (Except.ok l) = l)
    ∧ (∀ logDir : String, generate_alloy_targets logDir [] = []) :=
  ⟨fun _ => rfl, fun _ => rfl, fun _ => rfl, fun _ => rfl, fun _ => rfl⟩

/-- C8: for every allocation record, missing optional fields fall back to
fixed defaults in the produced targets: a missing JobID yields
job = "unknown", a missing TaskGroup yields task_group = "unknown", and a
missing Namespace yields namespace = "default". -/
theorem C8_missing_field_defaults (logDir : String) (alloc : Alloc) :
    (alloc.JobID = Option.none →
      ∀ t ∈ allocTargets logDir alloc, t.job = "unknown")
    ∧ (alloc.TaskGroup = Option.none →
      ∀ t ∈ allocTargets logDir alloc, t.task_group = "unknown")
    ∧ (alloc.Namespace = Option.none →
      ∀ t ∈ allocTargets logDir alloc, t.nspace = "default") := by
  refine ⟨fun h t ht => ?_, fun h t ht => ?_, fun h t ht => ?_⟩ <;>
    obtain ⟨task, stream, rfl, -, -⟩ := eq_mkTarget_of_mem ht <;>
    simp only [mkTarget, h, Option.getD_none]

def alloc8ex : Alloc :=
  { ID := some "id8", JobID := Option.none, TaskGroup := Option.none,
    ClientStatus := some "running", Namespace := Option.none,
    NodeID := some "node-1", TaskStates := some ["t"] }

theorem C8_witness :
    alloc8ex.JobID = Option.none
    ∧ alloc8ex.TaskGroup = Option.none
    ∧ alloc8ex.Namespace = Option.none
    ∧ (∀ t ∈ allocTargets "/var/nomad/alloc" alloc8ex, t.job = "unknown")
    ∧ (∀ t ∈ allocTargets "/var/nomad/alloc" alloc8ex, t.task_group = "unknown")
    ∧ (∀ t ∈ allocTargets "/var/nomad/alloc" alloc8ex, t.nspace = "default") :=
  ⟨rfl, rfl, rfl,
    (C8_missing_field_defaults "/var/nomad/alloc" alloc8ex).1 rfl,
    (C8_missing_field_defaults "/var/nomad/alloc" alloc8ex).2.1 rfl,
    (C8_missing_field_defaults "/var/nomad/alloc" alloc8ex).2.2 rfl⟩

/-- C9: rendering is deterministic and idempotent — rendering the same
target sequence twice (with the same configuration) yields byte-identical
output.  `render` is a pure function of the target list (the source builds
the string from its inputs only; dict iteration order is insertion order),
so two renderings of equal sequences are equal byte for byte. -/
theorem C9_render_deterministic (ts1 ts2 : List Target) (h : ts1 = ts2) :
    render ts1 = render ts2 := by rw [h]

def target9ex : Target :=
  { path := "/var/nomad/alloc/abc123/alloc/logs/server.stdout.0",
    job := "web", task_group := "api", task := "server",
    alloc_id := "abc123", nspace := "prod", stream := "stdout",
    node_id := "node-1" }

theorem C9_witness :
    [target9ex] = [target9ex] ∧ render [target9ex] = render [target9ex] :=
  ⟨rfl, C9_render_deterministic [target9ex] [target9ex] rfl⟩

/-- C10: the mapper is total over arbitrary allocation records — a record
missing any field never raises (every field access goes through a default);
in particular a record with no ClientStatus field is treated as status
"unknown" and filtered out, and an eligible allocation with a missing or
empty TaskStates mapping contributes zero targets. -/
theorem C10_missing_fields_safe (logDir : String) (alloc : Alloc) :
    (alloc.ClientStatus = Option.none →
      statusOf alloc = "unknown" ∧ allocTargets logDir alloc = [])
    ∧ (alloc.TaskStates.getD [] = [] → allocTargets logDir alloc = []) := by
  constructor
  · intro h
    have hs : statusOf alloc = "unknown" := by
      unfold statusOf
      rw [h]
      rfl
    refine ⟨hs, ?_⟩
    unfold allocTargets
    rw [hs, if_neg (by decide)]
  · intro h
    unfold allocTargets
    rw [h]
    simp only [List.flatMap_nil, ite_self]

def alloc10a : Alloc :=
  { ID := some "id10a", JobID := some "web", TaskGroup := some "api",
    ClientStatus := Option.none, Namespace := some "prod",
    NodeID := some "node-1", TaskStates := some ["server"] }

def alloc10b : Alloc :=
  { ID := some "id10b", JobID := some "web", TaskGroup := some "api",
    ClientStatus := some "running", Namespace := some "prod",
    NodeID := some "node-1", TaskStates := Option.none }

theorem C10_witness :
    alloc10a.ClientStatus = Option.none
    ∧ statusOf alloc10a = "unknown"
    ∧ allocTargets "/var/nomad/alloc" alloc10a = []
    ∧ alloc10b.TaskStates.getD [] = []
    ∧ allocTargets "/var/nomad/alloc" alloc10b = [] :=
  ⟨rfl,
    ((C10_missing_fields_safe "/var/nomad/alloc" alloc10a).1 rfl).1,
    ((C10_missing_fields_safe "/var/nomad/alloc" alloc10a).1 rfl).2,
    rfl,
    (C10_missing_fields_safe "/var/nomad/alloc" alloc10b).2 rfl⟩

theorem escapeQuote_escapeBackslash_cons (c : Char) (l : List Char) :
    escapeQuote (escapeBackslash (c :: l))
      = (if c = '\\' then ['\\', '\\']
         else if c = '"' then ['\\', '"'] else [c])
        ++ escapeQuote (escapeBackslash l) := by
  by_cases hb : c = '\\'
  · subst hb
    simp [escapeBackslash, escapeQuote]
  · by_cases hq : c = '"'
    · subst hq
      simp [escapeBackslash, escapeQuote]
    · simp [escapeBackslash, escapeQuote, hb, hq]

theorem unescape_escape (l : List Char) :
    unescapeChars (escapeQuote (escapeBackslash l)) = some l := by
  induction l with
  | nil => rfl
  | cons c l ih =>
    rw [escapeQuote_escapeBackslash_cons]
    by_cases hb : c = '\\'
    · subst hb
      simp [unescapeChars, ih]
    · by_cases hq : c = '"'
      · subst hq
        simp [unescapeChars, ih]
      · rw [if_neg hb, if_neg hq, List.singleton_append]
        rw [unescapeChars.eq_def]
        simp only []
        rw [if_neg hb, if_neg hq, ih]
        rfl

/-- C6: label-value escaping rewrites backslash first and then double-quote
(never re-escaping a backslash it inserted while escaping a quote — the
quote pass only touches quote characters), so that for every label value
containing a double quote or a backslash, a conformant parser of the grammar
(unescaping a doubled backslash to a backslash and a backslash-quote to a
quote) recovers the original string exactly. -/
theorem C6_escape_roundtrip (s : String)
    (_h : '"' ∈ s.toList ∨ '\\' ∈ s.toList) :
    unescapeChars (escape_value s).toList = some s.toList :=
  unescape_escape s.toList

theorem C6_witness :
    ('"' ∈ ("a\"b\\c" : String).toList ∨ '\\' ∈ ("a\"b\\c" : String).toList)
    ∧ unescapeChars (escape_value "a\"b\\c").toList = some ("a\"b\\c" : String).toList :=
  ⟨by decide, C6_escape_roundtrip "a\"b\\c" (by decide)⟩

theorem stripV1_eq_some {l r : List Char} (h : stripV1 l = some r) :
    l = '/' :: 'v' :: '1' :: '/' :: r := by
  match l with
  | [] => simp [stripV1] at h
  | [a] => simp [stripV1] at h
  | [a, b] => simp [stripV1] at h
  | [a, b, c] => simp [stripV1] at h
  | a :: b :: c :: d :: rest =>
    simp only [stripV1] at h
    split at h
    · rename_i hcond
      obtain ⟨h1, h2, h3, h4⟩ := hcond
      injection h with h5
      subst h1; subst h2; subst h3; subst h4; subst h5
      rfl
    · cases h

theorem splitV1Aux_fuel : ∀ n m (l : List Char), l.length ≤ n → l.length ≤ m →
    splitV1Aux n l = splitV1Aux m l := by
  intro n
  induction n with
  | zero =>
    intro m l hn _
    have hl : l = [] := List.eq_nil_of_length_eq_zero (Nat.le_zero.mp hn)
    subst hl
    cases m with
    | zero => rfl
    | succ m => simp [splitV1Aux, stripV1]
  | succ n ih =>
    intro m l hn hm
    cases l with
    | nil =>
      cases m with
      | zero => simp [splitV1Aux, stripV1]
      | succ m => simp [splitV1Aux, stripV1]
    | cons c rest =>
      cases m with
      | zero => simp at hm
      | succ m =>
        cases hs : stripV1 (c :: rest) with
        | some r =>
          have hlr := stripV1_eq_some hs
          have hlen : rest.length = r.length + 3 := by
            have := congrArg List.length hlr
            simpa using this
          simp only [splitV1Aux, hs]
          rw [ih m r (by simp at hn; omega) (by simp at hm; omega)]
        | none =>
          simp only [splitV1Aux, hs]
          rw [ih m rest (by simp at hn; omega) (by simp at hm; omega)]

theorem splitV1Aux_succ_some {n : Nat} {l r : List Char} (hs : stripV1 l = some r) :
    splitV1Aux (n + 1) l = [] :: splitV1Aux n r := by
  simp only [splitV1Aux, hs]

theorem splitV1_sep (r : List Char) :
    splitV1 ('/' :: 'v' :: '1' :: '/' :: r) = [] :: splitV1 r := by
  have hstrip : stripV1 ('/' :: 'v' :: '1' :: '/' :: r) = some r := by
    simp [stripV1]
  have hlen : ('/' :: 'v' :: '1' :: '/' :: r).length = r.length + 4 := by simp
  unfold splitV1
  rw [hlen]
  rw [splitV1Aux_succ_some hstrip]
  rw [splitV1Aux_fuel (r.length + 3) r.length r (by omega) (by omega)]

theorem splitV1_cons {c : Char} {rest : List Char}
    (hs : stripV1 (c :: rest) = Option.none) :
    splitV1 (c :: rest) = consHead c (splitV1 rest) := by
  unfold splitV1
  simp only [List.length_cons, splitV1Aux, hs]

theorem splitV1_of_noSep : ∀ {l : List Char},
    splitFirstV1 l = Option.none → splitV1 l = [l] := by
  intro l
  induction l with
  | nil => intro _; rfl
  | cons c rest ih =>
    intro h
    cases hs : stripV1 (c :: rest) with
    | some r => simp [splitFirstV1, hs] at h
    | none =>
      have hrest : splitFirstV1 rest = Option.none := by
        simp only [splitFirstV1, hs] at h
        cases hr : splitFirstV1 rest with
        | none => rfl
        | some p => rw [hr] at h; simp at h
      rw [splitV1_cons hs, ih hrest]
      rfl

theorem splitV1_of_sep : ∀ {l b r : List Char}, splitFirstV1 l = some (b, r) →
    ∃ t, r = '/' :: 'v' :: '1' :: '/' :: t ∧ splitV1 l = b :: splitV1 t := by
  intro l
  induction l with
  | nil => intro b r h; simp [splitFirstV1] at h
  | cons c rest ih =>
    intro b r h
    cases hs : stripV1 (c :: rest) with
    | some r0 =>
      have hlr := stripV1_eq_some hs
      simp only [splitFirstV1, hs] at h
      injection h with h
      obtain ⟨hb, hr⟩ := Prod.mk.inj h
      subst hb
      subst hr
      exact ⟨r0, hlr, by rw [hlr, splitV1_sep]⟩
    | none =>
      simp only [splitFirstV1, hs] at h
      cases hr : splitFirstV1 rest with
      | none => rw [hr] at h; simp at h
      | some p =>
        rw [hr] at h
        simp only [Option.map_some'] at h
        injection h with h
        obtain ⟨hb, hrr⟩ := Prod.mk.inj h
        obtain ⟨t, ht, hsplit⟩ := ih (b := p.1) (r := p.2) hr
        refine ⟨t, ?_, ?_⟩
        · rw [← hrr]; exact ht
        · rw [← hb, splitV1_cons hs, hsplit]
          rfl

theorem take7_unixScheme (rest : List Char) :
    ("unix://".toList ++ rest).take 7 = "unix://".toList := rfl

theorem drop7_unixScheme (rest : List Char) :
    ("unix://".toList ++ rest).drop 7 = rest := rfl

/-- C3 counterexample: on `unix:///tmp/api.sock/v1/a/v1/b` — a URL in which
the segment `/v1/` occurs twice after the scheme — the transport's split
(`split("/v1/")[1]`) yields the HTTP path `/v1/a`, whereas everything from
the first `/v1/` onward (inclusive) is `/v1/a/v1/b`; so the claim's
description of the HTTP path is false for this URL. -/
theorem C3_counterexample :
    unixSplit ("unix:///tmp/api.sock/v1/a/v1/b".toList)
        = some ("/tmp/api.sock".toList, "/v1/a".toList)
    ∧ splitFirstV1 ("/tmp/api.sock/v1/a/v1/b".toList)
        = some ("/tmp/api.sock".toList, "/v1/a/v1/b".toList)
    ∧ "/v1/a".toList ≠ "/v1/a/v1/b".toList := by
  refine ⟨?_, ?_, ?_⟩ <;> decide

/-- C3 (amended): for a URL `unix://<rest>`, the socket path is everything
before the first occurrence of `/v1/` and the HTTP path is `/v1/` followed by
the text between the first and the second occurrence of `/v1/`; when `/v1/`
occurs exactly once in `<rest>` (no further occurrence after the first) this
agrees with the claim: the split is at the first occurrence, with everything
before it the socket path and everything from it onward the HTTP path. -/
theorem C3_split_at_unique_v1 (rest b r : List Char)
    (hfirst : splitFirstV1 rest = some (b, r))
    (hsingle : splitFirstV1 (r.drop 4) = Option.none) :
    unixSplit ("unix://".toList ++ rest) = some (b, r) := by
  obtain ⟨t, ht, hsplit⟩ := splitV1_of_sep hfirst
  have hdrop : r.drop 4 = t := by rw [ht]; rfl
  rw [hdrop] at hsingle
  have hT : splitV1 t = [t] := splitV1_of_noSep hsingle
  unfold unixSplit
  rw [if_pos (take7_unixScheme rest), drop7_unixScheme, hsplit, hT, ht]

theorem C3_witness :
    splitFirstV1 ("/tmp/api.sock/v1/allocation/abc".toList)
        = some ("/tmp/api.sock".toList, "/v1/allocation/abc".toList)
    ∧ splitFirstV1 (("/v1/allocation/abc".toList).drop 4) = Option.none
    ∧ unixSplit ("unix://".toList ++ "/tmp/api.sock/v1/allocation/abc".toList)
        = some ("/tmp/api.sock".toList, "/v1/allocation/abc".toList) :=
  ⟨by decide, by decide,
    C3_split_at_unique_v1 ("/tmp/api.sock/v1/allocation/abc".toList)
      ("/tmp/api.sock".toList) ("/v1/allocation/abc".toList)
      (by decide) (by decide)⟩

/-- C1 counterexample: the claim that a failed write leaves the previously
valid output file intact is false — `write_discovery_file` opens the
destination with mode `'w'`, which truncates it in place before any bytes of
the new content are written; a failure right after the open (k = 0 characters
flushed) leaves an empty file, not the previous content `old valid config`. -/
theorem C1_counterexample :
    fileAfterWrite ("old valid config".toList) ("new config".toList)
        (WriteStep.failAfterTruncate 0)
      ≠ "old valid config".toList := by decide

/-- C1 (amended): the write is not atomic — only a failure before the open
(serialization, directory creation, or the open itself) leaves the previous
file intact; once `open(output_path, 'w')` has truncated the destination in
place, a failure during write/flush/close leaves whatever prefix of the new
content reached the file (possibly empty), and only completion leaves the
full rendered content.  There is no temporary file or rename, so a failed
cycle can leave a partially-written or truncated file visible. -/
theorem C1_truncate_in_place (prev content : List Char) (k : Nat) :
    fileAfterWrite prev content WriteStep.failBeforeOpen = prev
    ∧ fileAfterWrite prev content (WriteStep.failAfterTruncate k) = content.take k
    ∧ fileAfterWrite prev content WriteStep.completed = content :=
  ⟨rfl, rfl, rfl⟩

/-- C2 counterexample: in continuous mode a write failure does NOT merely
fail the current cycle — `write_discovery_file` converts any exception into
`sys.exit(1)`, and the resulting `SystemExit` is not caught by the main
loop's `except Exception` handler, so the process exits with status 1
instead of retrying on the next cycle. -/
theorem C2_counterexample :
    cycleAfterWrite true true = CycleResult.procExit 1
    ∧ cycleAfterWrite true true ≠ CycleResult.nextCycle := by
  exact ⟨rfl, by decide⟩

/-- C2 (amended): a write failure is fatal to the process in BOTH modes —
`write_discovery_file` calls `sys.exit(1)` on any exception, and
`SystemExit` bypasses the main loop's `except Exception`; only an ordinary
exception that reaches the main loop is retried in continuous mode (and
fatal in single-shot mode), as the source's own handler shows. -/
theorem C2_write_failure_always_fatal (continuousMode : Bool) :
    cycleAfterWrite continuousMode true = CycleResult.procExit 1
    ∧ cycleAfterWrite continuousMode false = CycleResult.nextCycle
    ∧ mainLoopCatch continuousMode PyExc.ordinary
        = (if continuousMode then CycleResult.nextCycle else CycleResult.procExit 1) := by
  cases continuousMode <;> exact ⟨rfl, rfl, rfl⟩

end NomadAlloy
